import Mathlib

/-!
Verification of the stronghold.rs core primitives against their
natural-language specification.

Part 1 embeds `src/stm/src/rlu/stm/version.rs` (the `VersionLock` word).
Part 2 embeds `src/engine/runtime/src/memories/noncontiguous_memory.rs`
(the split-secret guard `NonContiguousMemory`).

The lock word is a `usize` on a 64-bit target, modelled as a `Nat` reduced
modulo `2 ^ 64` wherever the machine arithmetic may wrap.  Operations are
modelled single-threaded: every claim under scrutiny quantifies over lock
words that no other thread touches, and in that setting each atomic
read-modify-write is a pure function of the current word.
-/

set_option maxRecDepth 10000

namespace Stronghold

/-- Transaction error enum of the stm module; only the variant reachable from
the version lock is modelled. -/
inductive TxError
  | LockPresent
deriving DecidableEq, Repr

namespace VersionLock

/-- Source `word_size_bits()`: `size_of::<usize>() * 8`, which is 64 on the
64-bit targets the crate runs on. -/
def word_size_bits : Nat := 8 * 8

/-- Source `shift_by()`: `word_size_bits() - 1`. -/
def shift_by : Nat := word_size_bits - 1

/-- Bitwise complement of `x` within one usize-sized word, the meaning of
Rust `!x` on an unsigned word. -/
def complement_word (x : Nat) : Nat := Nat.xor (2 ^ word_size_bits - 1) x

/-- Source `mask()`: `!(1 << shift_by())`, all bits set except the most
significant one. -/
def mask : Nat := complement_word (1 <<< shift_by)

/-- Source `VersionLock::is_locked`: load the word `n`, then
`compare_exchange(mask() & n, n, ..)`; the exchange fails exactly when the
current word `n` differs from `mask() & n`, i.e. when the lock bit is set,
and `is_err()` of that outcome is returned.  On success the exchange stores
`n` back, so the word is unchanged either way and the operation is a pure
predicate of the word. -/
def is_locked (s : Nat) : Bool := !(mask &&& s == s)

/-- Two's-complement value of the low 32 bits of `n`.  In the source,
`let bound = 1 << 31;` carries no type annotation and nothing constrains it,
so rustc types `bound` (and the loop index `n`) as `i32`. -/
def i32val (n : Nat) : Int :=
  if n % 2 ^ 32 < 2 ^ 31 then (n % 2 ^ 32 : Int) else (n % 2 ^ 32 : Int) - 2 ^ 32

/-- Source `bound` in `try_lock`: the i32 value of `1 << 31`, which is
`-2 ^ 31`, not `2 ^ 31`. -/
def bound : Int := i32val (1 <<< 31)

/-- Body of the `for n in 0..bound` loop of `try_lock`, iterated over the
remaining iteration count (`fuel`) with `n` the current index.  A locked word
makes the body `continue`; an unlocked word falls through to the
`n == bound - 1` early-return check.  (When the range is nonempty and the
word stays fixed, this reproduces the source's control flow exactly; the
`threaded`-feature sleep has no semantic effect.) -/
def try_lock_go (s : Nat) : Nat → Int → Option TxError
  | 0, _ => none
  | fuel + 1, n =>
    if is_locked s then try_lock_go s fuel (n + 1)
    else if n = bound - 1 then some TxError.LockPresent
    else try_lock_go s fuel (n + 1)

/-- Source `VersionLock::try_lock`: run the bounded loop — `0..bound` yields
`bound.toNat` iterations, which is zero because `bound` is the i32 value
`-2 ^ 31` — and, unless the loop returned the contended error, set the lock
bit with `fetch_or(!mask())` and return `Ok(())`.  The result pairs the
returned value with the lock word after the call. -/
def try_lock (s : Nat) : Except TxError Unit × Nat :=
  match try_lock_go s bound.toNat 0 with
  | some e => (Except.error e, s)
  | none => (Except.ok (), s ||| complement_word mask)

/-- Source `VersionLock::unlock`: `fetch_and(mask())` clears the lock bit and
the call always returns `Ok(())`. -/
def unlock (s : Nat) : Except TxError Unit × Nat := (Except.ok (), s &&& mask)

/-- Source `VersionLock::release`: `unlock()?` then `fetch_add(1)`; the
addition wraps modulo the word size as the atomic does. -/
def release (s : Nat) : Except TxError Unit × Nat :=
  match unlock s with
  | (Except.ok _, s1) => (Except.ok (), (s1 + 1) % 2 ^ word_size_bits)
  | (Except.error e, s1) => (Except.error e, s1)

/-- Source `VersionLock::version`: `load() & mask()`. -/
def version (s : Nat) : Nat := s &&& mask

end VersionLock

/-!
Part 2: the split-secret guard of
`src/engine/runtime/src/memories/noncontiguous_memory.rs`.

A byte buffer is a `List Nat` (each entry one byte).  The collaborators the
guard consumes but whose code is not under `src/` — the RAM and file shard
primitives, the byte-wise `xor` of `utils`, `Buffer`, and the `Blake2b256`
hash — are modelled from the spec; the hash and the random draws are passed
in explicitly so every claim can quantify over them.  A result of `none`
models a Rust panic (an `expect` or `unreachable!` firing); `some` carries
the returned `Result`.
-/

/-- Bytes of a buffer. -/
abbrev Bytes := List Nat

/-- Source `NC_DATA_SIZE`: the only payload size the guard accepts. -/
def NC_DATA_SIZE : Nat := 32

/-- Source `NCConfig`. -/
inductive NCConfig
  | FullFile
  | FullRam
  | RamAndFile
deriving DecidableEq, Repr

/-- Memory error enum of the runtime crate; the variants used by the guard,
plus the spec's `ShardUnavailable` for a failed shard unlock. -/
inductive MemoryError
  | NCSizeNotAllowed
  | LockNotAvailable
  | Allocation (msg : String)
  | ShardUnavailable
deriving DecidableEq, Repr

/-- Modelled from the spec: the volatile (RAM) shard primitive, an opaque
32-byte holder with capability alloc / unlock / zeroize.  `alive` tracks
whether the buffer is still usable; a zeroized shard is not. -/
structure RamMemory where
  data : Bytes
  alive : Bool
deriving DecidableEq, Repr

/-- Modelled from the spec: `RamMemory::alloc` stores the given bytes (call
sites always pass exactly `size = NC_DATA_SIZE` bytes). -/
def RamMemory.alloc (payload : Bytes) (size : Nat) : Except MemoryError RamMemory :=
  Except.ok { data := payload, alive := true }

/-- Modelled from the spec: `unlock(handle) -> 32 bytes | UnavailableError`;
after zeroize the unlock attempt fails with `ShardUnavailable`. -/
def RamMemory.unlock (self : RamMemory) : Except MemoryError Bytes :=
  if self.alive then Except.ok self.data else Except.error MemoryError.ShardUnavailable

/-- Modelled from the spec: zeroize overwrites the buffer in place and makes
the shard unusable. -/
def RamMemory.zeroize (self : RamMemory) : RamMemory :=
  { data := List.replicate self.data.length 0, alive := false }

/-- Modelled from the spec: the persistent (file-backed) shard primitive,
with the same capability surface as the RAM shard. -/
structure FileMemory where
  data : Bytes
  alive : Bool
deriving DecidableEq, Repr

/-- Modelled from the spec: `FileMemory::alloc`. -/
def FileMemory.alloc (payload : Bytes) (size : Nat) : Except MemoryError FileMemory :=
  Except.ok { data := payload, alive := true }

/-- Modelled from the spec: `FileMemory::unlock`. -/
def FileMemory.unlock (self : FileMemory) : Except MemoryError Bytes :=
  if self.alive then Except.ok self.data else Except.error MemoryError.ShardUnavailable

/-- Modelled from the spec: `FileMemory::zeroize`. -/
def FileMemory.zeroize (self : FileMemory) : FileMemory :=
  { data := List.replicate self.data.length 0, alive := false }

/-- Modelled from the spec: `utils::xor(a, b, size)`, the byte-wise XOR of
the first `size` bytes of the two buffers. -/
def xor (a b : Bytes) (size : Nat) : Bytes :=
  List.zipWith Nat.xor (a.take size) (b.take size)

/-- Modelled from the spec: `Buffer::alloc` copies `size` bytes into a fresh
caller-owned buffer; a buffer is modelled as its byte contents. -/
def Buffer.alloc (data : Bytes) (size : Nat) : Bytes := data.take size

/-- Source `MemoryShard`. -/
inductive MemoryShard
  | FileShard (fm : FileMemory)
  | RamShard (ram : RamMemory)
deriving DecidableEq, Repr

/-- Source `impl Zeroize for MemoryShard`: dispatch to the inner shard. -/
def MemoryShard.zeroize : MemoryShard → MemoryShard
  | .FileShard fm => .FileShard fm.zeroize
  | .RamShard ram => .RamShard ram.zeroize

/-- Shard capability unlock, dispatched on the shard kind the way the source
matches on `RamShard` / `FileShard` inline. -/
def MemoryShard.unlockShard : MemoryShard → Except MemoryError Bytes
  | .FileShard fm => fm.unlock
  | .RamShard ram => ram.unlock

/-- Whether a shard is the RAM kind. -/
def MemoryShard.isRam : MemoryShard → Bool
  | .FileShard _ => false
  | .RamShard _ => true

/-- Raw bytes currently held by a shard. -/
def MemoryShard.bytes : MemoryShard → Bytes
  | .FileShard fm => fm.data
  | .RamShard ram => ram.data

/-- Whether a shard is still usable (not zeroized). -/
def MemoryShard.usable : MemoryShard → Bool
  | .FileShard fm => fm.alive
  | .RamShard ram => ram.alive

/-- Source `NonContiguousMemory`: two shards plus the configuration tag. -/
structure NonContiguousMemory where
  shard1 : MemoryShard
  shard2 : MemoryShard
  config : NCConfig
deriving DecidableEq, Repr

/-- Source `NonContiguousMemory::alloc`.  `hash` is the `Blake2b256` digest
and `random` the 32 bytes drawn by `random_vec(NC_DATA_SIZE)`, both passed in
explicitly. -/
def NonContiguousMemory.alloc (hash : Bytes → Bytes) (random : Bytes)
    (payload : Bytes) (size : Nat) (config : NCConfig) :
    Except MemoryError NonContiguousMemory :=
  if size ≠ NC_DATA_SIZE then Except.error MemoryError.NCSizeNotAllowed
  else
    let digest0 := hash random
    let digest := xor digest0 payload NC_DATA_SIZE
    match RamMemory.alloc random NC_DATA_SIZE with
    | Except.error e => Except.error e
    | Except.ok ram1 =>
      let shard1 := MemoryShard.RamShard ram1
      match config with
      | NCConfig.RamAndFile =>
        match FileMemory.alloc digest NC_DATA_SIZE with
        | Except.error e => Except.error e
        | Except.ok fmem =>
          Except.ok { shard1 := shard1, shard2 := MemoryShard.FileShard fmem, config := config }
      | NCConfig.FullRam =>
        match RamMemory.alloc digest NC_DATA_SIZE with
        | Except.error e => Except.error e
        | Except.ok ram2 =>
          Except.ok { shard1 := shard1, shard2 := MemoryShard.RamShard ram2, config := config }
      | _ => Except.error MemoryError.LockNotAvailable

/-- Source `NonContiguousMemory::get_buffer_from_shard1`: unlock the first
shard, panicking (`expect`) if the unlock fails and panicking
(`unreachable!`) if the first shard is not the RAM kind; `none` models the
panic. -/
def NonContiguousMemory.get_buffer_from_shard1 (self : NonContiguousMemory) : Option Bytes :=
  match self.shard1 with
  | MemoryShard.RamShard ram =>
    match ram.unlock with
    | Except.ok buf => some buf
    | Except.error _ => none
  | _ => none

/-- Source `NonContiguousMemory::refresh`: draw `random`, XOR it onto the
first shard's bytes, and patch the second shard by XOR-ing out the hash of
the old first shard and XOR-ing in the hash of the new one; a new guard
value is returned, the old one is untouched. -/
def NonContiguousMemory.refresh (hash : Bytes → Bytes) (random : Bytes)
    (self : NonContiguousMemory) : Option (Except MemoryError NonContiguousMemory) :=
  match self.get_buffer_from_shard1 with
  | none => none
  | some data_of_old_shard1 =>
    let new_data1 := xor data_of_old_shard1 random NC_DATA_SIZE
    match RamMemory.alloc new_data1 NC_DATA_SIZE with
    | Except.error e => some (Except.error e)
    | Except.ok nr =>
      let new_shard1 := MemoryShard.RamShard nr
      let hash_of_old_shard1 := hash data_of_old_shard1
      let hash_of_new_shard1 := hash new_data1
      match self.shard2 with
      | MemoryShard.RamShard ram2 =>
        match ram2.unlock with
        | Except.error e => some (Except.error e)
        | Except.ok buf =>
          let new_data2 := xor buf hash_of_old_shard1 NC_DATA_SIZE
          let new_data2 := xor new_data2 hash_of_new_shard1 NC_DATA_SIZE
          match RamMemory.alloc new_data2 NC_DATA_SIZE with
          | Except.error e => some (Except.error e)
          | Except.ok r2 =>
            some (Except.ok { shard1 := new_shard1, shard2 := MemoryShard.RamShard r2,
                              config := self.config })
      | MemoryShard.FileShard fm =>
        match fm.unlock with
        | Except.error e => some (Except.error e)
        | Except.ok buf =>
          let new_data2 := xor buf hash_of_old_shard1 NC_DATA_SIZE
          let new_data2 := xor new_data2 hash_of_new_shard1 NC_DATA_SIZE
          match FileMemory.alloc new_data2 NC_DATA_SIZE with
          | Except.error e => some (Except.error e)
          | Except.ok f2 =>
            some (Except.ok { shard1 := new_shard1, shard2 := MemoryShard.FileShard f2,
                              config := self.config })

/-- Source `LockedMemory::unlock` for `NonContiguousMemory`: call
`self.refresh()?` — whose returned guard the source drops on the floor, since
`refresh` takes `&self` and builds a fresh value — then digest the (original)
first shard and XOR it with the (original) second shard.  The pair carries
the unlocked buffer together with the guard as it stands after the call,
which is `self` itself because `&self` cannot be mutated. -/
def NonContiguousMemory.unlock (hash : Bytes → Bytes) (random : Bytes)
    (self : NonContiguousMemory) :
    Option (Except MemoryError (Bytes × NonContiguousMemory)) :=
  match self.refresh hash random with
  | none => none
  | some (Except.error e) => some (Except.error e)
  | some (Except.ok _discarded) =>
    match self.get_buffer_from_shard1 with
    | none => none
    | some buf1 =>
      let data1 := hash buf1
      match self.shard2 with
      | MemoryShard.RamShard ram2 =>
        match ram2.unlock with
        | Except.error e => some (Except.error e)
        | Except.ok buf =>
          some (Except.ok (Buffer.alloc (xor data1 buf NC_DATA_SIZE) NC_DATA_SIZE, self))
      | MemoryShard.FileShard fm =>
        match fm.unlock with
        | Except.error e => some (Except.error e)
        | Except.ok buf =>
          some (Except.ok (Buffer.alloc (xor data1 buf NC_DATA_SIZE) NC_DATA_SIZE, self))

/-- Source `LockedMemory::update` for `NonContiguousMemory`: realloc with the
same configuration. -/
def NonContiguousMemory.update (hash : Bytes → Bytes) (random : Bytes)
    (self : NonContiguousMemory) (payload : Bytes) (size : Nat) :
    Except MemoryError NonContiguousMemory :=
  NonContiguousMemory.alloc hash random payload size self.config

/-- Source `impl Zeroize for NonContiguousMemory`: zeroize both shards and
reset the configuration to the `FullRam` sentinel. -/
def NonContiguousMemory.zeroize (self : NonContiguousMemory) : NonContiguousMemory :=
  { shard1 := self.shard1.zeroize, shard2 := self.shard2.zeroize,
    config := NCConfig.FullRam }

/-- Source `impl Drop for NonContiguousMemory`: dropping zeroizes. -/
def NonContiguousMemory.drop (self : NonContiguousMemory) : NonContiguousMemory :=
  self.zeroize

/-- Source `impl Serialize for NonContiguousMemory`: unlock the guard —
panicking via `expect` when unlock fails or panics — and serialize the
unlocked plaintext bytes.  `none` models the panic. -/
def NonContiguousMemory.serialize (hash : Bytes → Bytes) (random : Bytes)
    (self : NonContiguousMemory) : Option Bytes :=
  match self.unlock hash random with
  | some (Except.ok (buf, _)) => some buf
  | _ => none

/-- Source `NonContiguousMemoryVisitor::visit_seq`: collect the byte
sequence, then `alloc(seq, seq.len(), FullRam)`, panicking via `expect` when
the allocation fails.  `none` models the panic. -/
def NonContiguousMemoryVisitor.visit_seq (hash : Bytes → Bytes) (random : Bytes)
    (seq : Bytes) : Option NonContiguousMemory :=
  match NonContiguousMemory.alloc hash random seq seq.length NCConfig.FullRam with
  | Except.ok g => some g
  | Except.error _ => none

/-- Source `impl Deserialize for NonContiguousMemory`: deserialize a byte
sequence through the visitor. -/
def NonContiguousMemory.deserialize (hash : Bytes → Bytes) (random : Bytes)
    (seq : Bytes) : Option NonContiguousMemory :=
  NonContiguousMemoryVisitor.visit_seq hash random seq

/-- Iterated rotation: apply `refresh` once per element of `randoms`,
propagating a panic or error of any round. -/
def NonContiguousMemory.refreshN (hash : Bytes → Bytes) :
    List Bytes → NonContiguousMemory → Option (Except MemoryError NonContiguousMemory)
  | [], g => some (Except.ok g)
  | d :: ds, g =>
    match g.refresh hash d with
    | some (Except.ok g2) => NonContiguousMemory.refreshN hash ds g2
    | r => r

/-- Well-formedness of a guard as `alloc` establishes it: a usable RAM-backed
first shard, a usable second shard, and 32 bytes in each shard. -/
def NonContiguousMemory.wf (g : NonContiguousMemory) : Bool :=
  g.shard1.isRam && g.shard1.usable && g.shard2.usable &&
    (g.shard1.bytes.length == NC_DATA_SIZE) && (g.shard2.bytes.length == NC_DATA_SIZE)

/-- Logical secret currently encoded by a guard:
`Hash256(shard1) XOR shard2`. -/
def NonContiguousMemory.secret (hash : Bytes → Bytes) (g : NonContiguousMemory) : Bytes :=
  xor (hash g.shard1.bytes) g.shard2.bytes NC_DATA_SIZE

/-- A hash usable as the guard's `Blake2b256`: it maps 32-byte buffers to
32-byte digests. -/
def HashLen (hash : Bytes → Bytes) : Prop :=
  ∀ b : Bytes, b.length = NC_DATA_SIZE → (hash b).length = NC_DATA_SIZE

/-- Identity on bytes, a concrete stand-in hash for witnesses (the claims
hold for every hash). -/
def hash0 : Bytes → Bytes := fun b => b

/-- 32 zero bytes, a concrete random draw for witnesses. -/
def r0 : Bytes := List.replicate NC_DATA_SIZE 0

/-- 32 one bytes, a concrete nonzero rotation delta for witnesses. -/
def d1 : Bytes := List.replicate NC_DATA_SIZE 1

/-- 32 bytes of value 7, a concrete payload for witnesses. -/
def p0 : Bytes := List.replicate NC_DATA_SIZE 7

/-- The guard `alloc hash0 r0 p0 32 FullRam` produces: shard1 holds `r0`,
shard2 holds `hash0 r0 XOR p0 = p0`. -/
def sampleGuard : NonContiguousMemory :=
  { shard1 := MemoryShard.RamShard { data := r0, alive := true },
    shard2 := MemoryShard.RamShard { data := p0, alive := true },
    config := NCConfig.FullRam }

/-- The guard `alloc hash0 r0 p0 32 RamAndFile` produces: like `sampleGuard`
but with a file-backed second shard. -/
def sampleGuardRF : NonContiguousMemory :=
  { shard1 := MemoryShard.RamShard { data := r0, alive := true },
    shard2 := MemoryShard.FileShard { data := p0, alive := true },
    config := NCConfig.RamAndFile }

end Stronghold

namespace Stronghold

namespace VersionLock

theorem mask_eq : mask = 2 ^ 63 - 1 := by decide

theorem comp_mask_eq : complement_word mask = 2 ^ 63 := by decide

theorem bound_toNat_eq : bound.toNat = 0 := by decide

theorem and_mask_eq (x : Nat) : x &&& mask = x % 2 ^ 63 := by
  rw [mask_eq]
  exact Nat.and_pow_two_sub_one_eq_mod x 63

theorem mask_and_eq (x : Nat) : mask &&& x = x % 2 ^ 63 := by
  rw [Nat.and_comm]
  exact and_mask_eq x

theorem version_eq (s : Nat) : version s = s % 2 ^ 63 := and_mask_eq s

theorem is_locked_eq (s : Nat) : is_locked s = decide (2 ^ 63 ≤ s) := by
  have hpos : 0 < (2 : Nat) ^ 63 := by positivity
  have hmod : s % 2 ^ 63 < 2 ^ 63 := Nat.mod_lt s hpos
  unfold is_locked
  rcases Nat.lt_or_ge s (2 ^ 63) with h | h
  · have h1 : mask &&& s = s := by rw [mask_and_eq]; exact Nat.mod_eq_of_lt h
    rw [h1]
    simp only [beq_self_eq_true, Bool.not_true, false_eq_decide_iff, Nat.not_le]
    omega
  · have h1 : mask &&& s ≠ s := by rw [mask_and_eq]; omega
    rw [beq_eq_false_iff_ne.mpr h1]
    simp only [Bool.not_false, true_eq_decide_iff]
    omega

theorem try_lock_unfold (s : Nat) :
    try_lock s = (Except.ok (), s ||| complement_word mask) := by
  simp [try_lock, bound_toNat_eq, try_lock_go]

theorem two_pow_word_size : (2 : Nat) ^ word_size_bits = 2 ^ 64 := rfl

end VersionLock

/-- C1: on a lock word whose lock bit is clear (and that no other thread
touches), `try_lock` returns `Ok(())`, sets the lock bit so that `is_locked`
becomes true, and leaves the version bits unchanged: the transition is from
`Unlocked(v)` to `Locked(v)`. -/
theorem C1_try_lock_free_locks (s : Nat) (hs : s < 2 ^ VersionLock.word_size_bits)
    (h : VersionLock.is_locked s = false) :
    (VersionLock.try_lock s).1 = Except.ok () ∧
    VersionLock.is_locked (VersionLock.try_lock s).2 = true ∧
    VersionLock.version (VersionLock.try_lock s).2 = VersionLock.version s := by
  have hlt : s < 2 ^ 63 := by
    rw [VersionLock.is_locked_eq, decide_eq_false_iff_not] at h
    omega
  rw [VersionLock.try_lock_unfold, VersionLock.comp_mask_eq]
  refine ⟨rfl, ?_, ?_⟩
  · rw [VersionLock.is_locked_eq]
    have h63 : (s ||| 2 ^ 63).testBit 63 = true := by
      simp only [Nat.testBit_or, Nat.testBit_two_pow_self, Bool.or_true]
    simp only [decide_eq_true_eq]
    exact Nat.testBit_implies_ge h63
  · rw [VersionLock.version_eq, VersionLock.version_eq]
    apply Nat.eq_of_testBit_eq
    intro i
    simp only [Nat.testBit_mod_two_pow, Nat.testBit_or, Nat.testBit_two_pow]
    by_cases hi : i < 63
    · have hne : ¬ (63 = i) := by omega
      simp [hi, hne]
    · simp [hi]

/-- Witness for C1 at the concrete unlocked word 5, i.e. `Unlocked(5)`. -/
theorem C1_witness :
    5 < 2 ^ VersionLock.word_size_bits ∧ VersionLock.is_locked 5 = false ∧
    ((VersionLock.try_lock 5).1 = Except.ok () ∧
     VersionLock.is_locked (VersionLock.try_lock 5).2 = true ∧
     VersionLock.version (VersionLock.try_lock 5).2 = VersionLock.version 5) :=
  ⟨by decide, by decide, C1_try_lock_free_locks 5 (by decide) (by decide)⟩

/-- C2 is a code bug: on a lock word whose lock bit is set and never cleared,
`try_lock` does not spin and does not fail with `LockPresent`.  The source's
`let bound = 1 << 31;` is typed `i32` by rustc, so `bound = -2 ^ 31` and the
`for n in 0..bound` spin loop is empty; `try_lock` immediately re-sets the
already-set lock bit (leaving the word unchanged) and returns `Ok(())`,
"acquiring" a lock someone else holds. -/
theorem C2_try_lock_contended_returns_ok (s : Nat)
    (hs : s < 2 ^ VersionLock.word_size_bits)
    (h : VersionLock.is_locked s = true) :
    VersionLock.try_lock s = (Except.ok (), s) := by
  have hge : 2 ^ 63 ≤ s := by
    rw [VersionLock.is_locked_eq, decide_eq_true_eq] at h
    exact h
  have hs64 : s < 2 ^ 64 := by rw [VersionLock.two_pow_word_size] at hs; exact hs
  rw [VersionLock.try_lock_unfold, VersionLock.comp_mask_eq]
  have h63 : s.testBit 63 = true := by
    rw [Nat.testBit_to_div_mod]
    have hdiv : s / 2 ^ 63 = 1 := by omega
    rw [hdiv]
    decide
  have hor : s ||| 2 ^ 63 = s := by
    apply Nat.eq_of_testBit_eq
    intro i
    by_cases hi : i = 63
    · subst hi
      simp only [Nat.testBit_or, Nat.testBit_two_pow_self, Bool.or_true, h63]
    · have hne : Nat.testBit (2 ^ 63) i = false :=
        Nat.testBit_two_pow_of_ne (fun hh => hi hh.symm)
      simp only [Nat.testBit_or, hne, Bool.or_false]
  rw [hor]

/-- Witness for C2 at the concrete word `2 ^ 63`, i.e. `Locked(0)` that is
never released: the call still reports success. -/
theorem C2_witness :
    2 ^ 63 < 2 ^ VersionLock.word_size_bits ∧
    VersionLock.is_locked (2 ^ 63) = true ∧
    VersionLock.try_lock (2 ^ 63) = (Except.ok (), 2 ^ 63) :=
  ⟨by decide, by decide, C2_try_lock_contended_returns_ok (2 ^ 63) (by decide) (by decide)⟩

/-- C6: from `Locked(v)` with `v` strictly below the maximum version value,
`release` returns `Ok(())`, clears the lock bit and increments the version by
exactly one (afterwards `is_locked` is false and `version` returns `v + 1`),
while `unlock` alone returns `Ok(())` and clears the lock bit leaving the
version bits unchanged. -/
theorem C6_release_increments (s : Nat) (hs : s < 2 ^ VersionLock.word_size_bits)
    (hl : VersionLock.is_locked s = true)
    (hv : VersionLock.version s < VersionLock.mask) :
    (VersionLock.release s).1 = Except.ok () ∧
    VersionLock.is_locked (VersionLock.release s).2 = false ∧
    VersionLock.version (VersionLock.release s).2 = VersionLock.version s + 1 ∧
    (VersionLock.unlock s).1 = Except.ok () ∧
    VersionLock.is_locked (VersionLock.unlock s).2 = false ∧
    VersionLock.version (VersionLock.unlock s).2 = VersionLock.version s := by
  have hmod : s % 2 ^ 63 < 2 ^ 63 - 1 := by
    rw [VersionLock.version_eq, VersionLock.mask_eq] at hv
    exact hv
  have hrel : VersionLock.release s =
      (Except.ok (), ((s &&& VersionLock.mask) + 1) % 2 ^ VersionLock.word_size_bits) := rfl
  have hunl : VersionLock.unlock s = (Except.ok (), s &&& VersionLock.mask) := rfl
  rw [hrel, hunl, VersionLock.and_mask_eq, VersionLock.two_pow_word_size]
  have hmodd : ((s % 2 ^ 63) + 1) % 2 ^ 64 = s % 2 ^ 63 + 1 := by
    apply Nat.mod_eq_of_lt
    omega
  rw [hmodd]
  refine ⟨rfl, ?_, ?_, rfl, ?_, ?_⟩
  · rw [VersionLock.is_locked_eq]
    simp only [decide_eq_false_iff_not]
    omega
  · rw [VersionLock.version_eq, VersionLock.version_eq]
    omega
  · rw [VersionLock.is_locked_eq]
    simp only [decide_eq_false_iff_not]
    omega
  · rw [VersionLock.version_eq, VersionLock.version_eq]
    omega

/-- Witness for C6 at the concrete word `2 ^ 63`, i.e. `Locked(0)`:
releasing yields `Unlocked(1)`. -/
theorem C6_witness :
    2 ^ 63 < 2 ^ VersionLock.word_size_bits ∧
    VersionLock.is_locked (2 ^ 63) = true ∧
    VersionLock.version (2 ^ 63) < VersionLock.mask ∧
    ((VersionLock.release (2 ^ 63)).1 = Except.ok () ∧
     VersionLock.is_locked (VersionLock.release (2 ^ 63)).2 = false ∧
     VersionLock.version (VersionLock.release (2 ^ 63)).2 = VersionLock.version (2 ^ 63) + 1 ∧
     (VersionLock.unlock (2 ^ 63)).1 = Except.ok () ∧
     VersionLock.is_locked (VersionLock.unlock (2 ^ 63)).2 = false ∧
     VersionLock.version (VersionLock.unlock (2 ^ 63)).2 = VersionLock.version (2 ^ 63)) :=
  ⟨by decide, by decide, by decide,
   C6_release_increments (2 ^ 63) (by decide) (by decide) (by decide)⟩

/-! Byte-wise XOR algebra used by the split-secret claims. -/

theorem zipWith_xor_comm : ∀ a b : Bytes,
    List.zipWith Nat.xor a b = List.zipWith Nat.xor b a
  | [], b => by cases b <;> simp
  | _ :: _, [] => by simp
  | a :: as, b :: bs => by
    simp only [List.zipWith_cons_cons]
    have hcomm : Nat.xor a b = Nat.xor b a := Nat.xor_comm a b
    rw [hcomm, zipWith_xor_comm as bs]

theorem zipWith_xor_cancel : ∀ a b : Bytes, a.length = b.length →
    List.zipWith Nat.xor a (List.zipWith Nat.xor a b) = b
  | [], [], _ => rfl
  | [], _ :: _, h => by simp at h
  | _ :: _, [], h => by simp at h
  | a :: as, b :: bs, h => by
    simp only [List.zipWith_cons_cons]
    have hh : Nat.xor a (Nat.xor a b) = b := by
      show a ^^^ (a ^^^ b) = b
      rw [← Nat.xor_assoc, Nat.xor_self, Nat.zero_xor]
    rw [hh, zipWith_xor_cancel as bs (by simpa using h)]

theorem zipWith_xor_rotate (hn ho m : Bytes)
    (h1 : hn.length = ho.length) (h2 : ho.length = m.length) :
    List.zipWith Nat.xor hn (List.zipWith Nat.xor (List.zipWith Nat.xor m ho) hn) =
      List.zipWith Nat.xor ho m := by
  have hlen : hn.length = (List.zipWith Nat.xor m ho).length := by
    rw [List.length_zipWith]
    omega
  rw [zipWith_xor_comm (List.zipWith Nat.xor m ho) hn,
    zipWith_xor_cancel hn (List.zipWith Nat.xor m ho) hlen,
    zipWith_xor_comm m ho]

theorem xor_eq_zipWith (a b : Bytes) (ha : a.length = NC_DATA_SIZE)
    (hb : b.length = NC_DATA_SIZE) :
    xor a b NC_DATA_SIZE = List.zipWith Nat.xor a b := by
  unfold xor
  rw [List.take_of_length_le (by omega), List.take_of_length_le (by omega)]

theorem length_xor (a b : Bytes) (ha : a.length = NC_DATA_SIZE)
    (hb : b.length = NC_DATA_SIZE) :
    (xor a b NC_DATA_SIZE).length = NC_DATA_SIZE := by
  rw [xor_eq_zipWith a b ha hb, List.length_zipWith]
  omega

/-! Structure of well-formed guards. -/

theorem wf_destruct (g : NonContiguousMemory) (hg : g.wf = true) :
    ∃ r1 : RamMemory, g.shard1 = MemoryShard.RamShard r1 ∧ r1.alive = true ∧
      r1.data.length = NC_DATA_SIZE ∧ g.shard2.usable = true ∧
      g.shard2.bytes.length = NC_DATA_SIZE := by
  unfold NonContiguousMemory.wf at hg
  cases h1 : g.shard1 with
  | FileShard fm =>
    rw [h1] at hg
    simp [MemoryShard.isRam] at hg
  | RamShard r1 =>
    rw [h1] at hg
    simp only [MemoryShard.isRam, MemoryShard.usable, MemoryShard.bytes, Bool.true_and,
      Bool.and_eq_true, beq_iff_eq] at hg
    exact ⟨r1, rfl, hg.1.1.1, hg.1.2, hg.1.1.2, hg.2⟩

theorem get_buffer_eq (g : NonContiguousMemory) (r1 : RamMemory)
    (h1 : g.shard1 = MemoryShard.RamShard r1) (ha : r1.alive = true) :
    g.get_buffer_from_shard1 = some r1.data := by
  unfold NonContiguousMemory.get_buffer_from_shard1
  rw [h1]
  simp [RamMemory.unlock, ha]

theorem refresh_ok (hash : Bytes → Bytes) (hh : HashLen hash)
    (d : Bytes) (hd : d.length = NC_DATA_SIZE)
    (g : NonContiguousMemory) (hg : g.wf = true) :
    ∃ g2 : NonContiguousMemory,
      g.refresh hash d = some (Except.ok g2) ∧
      g2.wf = true ∧
      g2.config = g.config ∧
      g2.shard2.isRam = g.shard2.isRam ∧
      g2.shard1.bytes = xor g.shard1.bytes d NC_DATA_SIZE ∧
      g2.shard2.bytes =
        xor (xor g.shard2.bytes (hash g.shard1.bytes) NC_DATA_SIZE)
          (hash (xor g.shard1.bytes d NC_DATA_SIZE)) NC_DATA_SIZE ∧
      g2.secret hash = g.secret hash := by
  obtain ⟨r1, h1, ha, hl1, hu2, hl2⟩ := wf_destruct g hg
  have hnew1 : (xor r1.data d NC_DATA_SIZE).length = NC_DATA_SIZE := length_xor _ _ hl1 hd
  have hhO : (hash r1.data).length = NC_DATA_SIZE := hh _ hl1
  have hhN : (hash (xor r1.data d NC_DATA_SIZE)).length = NC_DATA_SIZE := hh _ hnew1
  cases h2 : g.shard2 with
  | RamShard ram2 =>
    have ha2 : ram2.alive = true := by
      rw [h2] at hu2
      simpa [MemoryShard.usable] using hu2
    have hm : ram2.data.length = NC_DATA_SIZE := by
      rw [h2] at hl2
      simpa [MemoryShard.bytes] using hl2
    have hnew2 : (xor (xor ram2.data (hash r1.data) NC_DATA_SIZE)
        (hash (xor r1.data d NC_DATA_SIZE)) NC_DATA_SIZE).length = NC_DATA_SIZE :=
      length_xor _ _ (length_xor _ _ hm hhO) hhN
    have hre : g.refresh hash d = some (Except.ok
        { shard1 := MemoryShard.RamShard { data := xor r1.data d NC_DATA_SIZE, alive := true },
          shard2 := MemoryShard.RamShard
            { data := xor (xor ram2.data (hash r1.data) NC_DATA_SIZE)
                (hash (xor r1.data d NC_DATA_SIZE)) NC_DATA_SIZE, alive := true },
          config := g.config }) := by
      unfold NonContiguousMemory.refresh
      rw [get_buffer_eq g r1 h1 ha, h2]
      simp [RamMemory.alloc, RamMemory.unlock, ha2]
    refine ⟨_, hre, ?_, rfl, ?_, ?_, ?_, ?_⟩
    · simp [NonContiguousMemory.wf, MemoryShard.isRam, MemoryShard.usable,
        MemoryShard.bytes, hnew1, hnew2]
    · simp [h2, MemoryShard.isRam]
    · simp [h1, MemoryShard.bytes]
    · simp [h1, h2, MemoryShard.bytes]
    · unfold NonContiguousMemory.secret
      rw [h1, h2]
      simp only [MemoryShard.bytes]
      rw [xor_eq_zipWith ram2.data (hash r1.data) hm hhO]
      rw [xor_eq_zipWith _ (hash (xor r1.data d NC_DATA_SIZE))
        (by rw [List.length_zipWith]; omega) hhN]
      rw [xor_eq_zipWith (hash (xor r1.data d NC_DATA_SIZE)) _ hhN
        (by rw [List.length_zipWith, List.length_zipWith]; omega)]
      rw [xor_eq_zipWith (hash r1.data) ram2.data hhO hm]
      exact zipWith_xor_rotate _ _ _ (by omega) (by omega)
  | FileShard fm =>
    have ha2 : fm.alive = true := by
      rw [h2] at hu2
      simpa [MemoryShard.usable] using hu2
    have hm : fm.data.length = NC_DATA_SIZE := by
      rw [h2] at hl2
      simpa [MemoryShard.bytes] using hl2
    have hnew2 : (xor (xor fm.data (hash r1.data) NC_DATA_SIZE)
        (hash (xor r1.data d NC_DATA_SIZE)) NC_DATA_SIZE).length = NC_DATA_SIZE :=
      length_xor _ _ (length_xor _ _ hm hhO) hhN
    have hre : g.refresh hash d = some (Except.ok
        { shard1 := MemoryShard.RamShard { data := xor r1.data d NC_DATA_SIZE, alive := true },
          shard2 := MemoryShard.FileShard
            { data := xor (xor fm.data (hash r1.data) NC_DATA_SIZE)
                (hash (xor r1.data d NC_DATA_SIZE)) NC_DATA_SIZE, alive := true },
          config := g.config }) := by
      unfold NonContiguousMemory.refresh
      rw [get_buffer_eq g r1 h1 ha, h2]
      simp [RamMemory.alloc, FileMemory.alloc, FileMemory.unlock, ha2]
    refine ⟨_, hre, ?_, rfl, ?_, ?_, ?_, ?_⟩
    · simp [NonContiguousMemory.wf, MemoryShard.isRam, MemoryShard.usable,
        MemoryShard.bytes, hnew1, hnew2]
    · simp [h2, MemoryShard.isRam]
    · simp [h1, MemoryShard.bytes]
    · simp [h1, h2, MemoryShard.bytes]
    · unfold NonContiguousMemory.secret
      rw [h1, h2]
      simp only [MemoryShard.bytes]
      rw [xor_eq_zipWith fm.data (hash r1.data) hm hhO]
      rw [xor_eq_zipWith _ (hash (xor r1.data d NC_DATA_SIZE))
        (by rw [List.length_zipWith]; omega) hhN]
      rw [xor_eq_zipWith (hash (xor r1.data d NC_DATA_SIZE)) _ hhN
        (by rw [List.length_zipWith, List.length_zipWith]; omega)]
      rw [xor_eq_zipWith (hash r1.data) fm.data hhO hm]
      exact zipWith_xor_rotate _ _ _ (by omega) (by omega)

theorem buffer_alloc_of_len (b : Bytes) (hb : b.length = NC_DATA_SIZE) :
    Buffer.alloc b NC_DATA_SIZE = b := by
  unfold Buffer.alloc
  exact List.take_of_length_le (by omega)

theorem unlock_ok (hash : Bytes → Bytes) (hh : HashLen hash)
    (d : Bytes) (hd : d.length = NC_DATA_SIZE)
    (g : NonContiguousMemory) (hg : g.wf = true) :
    g.unlock hash d = some (Except.ok (g.secret hash, g)) := by
  obtain ⟨g2, hre, _, _, _, _, _, _⟩ := refresh_ok hash hh d hd g hg
  obtain ⟨r1, h1, ha, hl1, hu2, hl2⟩ := wf_destruct g hg
  have hhO : (hash r1.data).length = NC_DATA_SIZE := hh _ hl1
  unfold NonContiguousMemory.unlock
  rw [hre, get_buffer_eq g r1 h1 ha]
  cases h2 : g.shard2 with
  | RamShard ram2 =>
    have ha2 : ram2.alive = true := by
      rw [h2] at hu2
      simpa [MemoryShard.usable] using hu2
    have hm : ram2.data.length = NC_DATA_SIZE := by
      rw [h2] at hl2
      simpa [MemoryShard.bytes] using hl2
    have hsec : NonContiguousMemory.secret hash g = xor (hash r1.data) ram2.data NC_DATA_SIZE := by
      unfold NonContiguousMemory.secret
      rw [h1, h2]
      simp [MemoryShard.bytes]
    have hba : Buffer.alloc (xor (hash r1.data) ram2.data NC_DATA_SIZE) NC_DATA_SIZE =
        xor (hash r1.data) ram2.data NC_DATA_SIZE :=
      buffer_alloc_of_len _ (length_xor _ _ hhO hm)
    simp [RamMemory.unlock, ha2, hsec, hba]
  | FileShard fm =>
    have ha2 : fm.alive = true := by
      rw [h2] at hu2
      simpa [MemoryShard.usable] using hu2
    have hm : fm.data.length = NC_DATA_SIZE := by
      rw [h2] at hl2
      simpa [MemoryShard.bytes] using hl2
    have hsec : NonContiguousMemory.secret hash g = xor (hash r1.data) fm.data NC_DATA_SIZE := by
      unfold NonContiguousMemory.secret
      rw [h1, h2]
      simp [MemoryShard.bytes]
    have hba : Buffer.alloc (xor (hash r1.data) fm.data NC_DATA_SIZE) NC_DATA_SIZE =
        xor (hash r1.data) fm.data NC_DATA_SIZE :=
      buffer_alloc_of_len _ (length_xor _ _ hhO hm)
    simp [FileMemory.unlock, ha2, hsec, hba]

theorem alloc_ok (hash : Bytes → Bytes) (hh : HashLen hash)
    (random payload : Bytes) (hr : random.length = NC_DATA_SIZE)
    (hp : payload.length = NC_DATA_SIZE) (cfg : NCConfig)
    (hcfg : cfg = NCConfig.FullRam ∨ cfg = NCConfig.RamAndFile) :
    ∃ g : NonContiguousMemory,
      NonContiguousMemory.alloc hash random payload NC_DATA_SIZE cfg = Except.ok g ∧
      g.wf = true ∧ g.config = cfg ∧
      g.shard1 = MemoryShard.RamShard { data := random, alive := true } ∧
      g.shard1.bytes = random ∧
      g.shard2.bytes = xor (hash random) payload NC_DATA_SIZE ∧
      g.secret hash = payload := by
  have hhr : (hash random).length = NC_DATA_SIZE := hh _ hr
  have hdig : (xor (hash random) payload NC_DATA_SIZE).length = NC_DATA_SIZE :=
    length_xor _ _ hhr hp
  have hsecret : xor (hash random) (xor (hash random) payload NC_DATA_SIZE) NC_DATA_SIZE
      = payload := by
    rw [xor_eq_zipWith (hash random) payload hhr hp]
    rw [xor_eq_zipWith (hash random) (List.zipWith Nat.xor (hash random) payload) hhr
      (by rw [List.length_zipWith]; omega)]
    exact zipWith_xor_cancel _ _ (by omega)
  rcases hcfg with h | h <;> subst h
  · refine ⟨_, rfl, ?_, rfl, rfl, rfl, rfl, ?_⟩
    · simp [NonContiguousMemory.wf, MemoryShard.isRam, MemoryShard.usable,
        MemoryShard.bytes, hr, hdig]
    · exact hsecret
  · refine ⟨_, rfl, ?_, rfl, rfl, rfl, rfl, ?_⟩
    · simp [NonContiguousMemory.wf, MemoryShard.isRam, MemoryShard.usable,
        MemoryShard.bytes, hr, hdig]
    · exact hsecret

theorem refreshN_ok (hash : Bytes → Bytes) (hh : HashLen hash) :
    ∀ ds : List Bytes, (∀ d ∈ ds, d.length = NC_DATA_SIZE) →
    ∀ g : NonContiguousMemory, g.wf = true →
    ∃ gN, NonContiguousMemory.refreshN hash ds g = some (Except.ok gN) ∧
      gN.wf = true ∧ gN.secret hash = g.secret hash
  | [], _, g, hg => ⟨g, rfl, hg, rfl⟩
  | d :: ds, hds, g, hg => by
    obtain ⟨g2, hre, hwf2, _, _, _, _, hsec⟩ :=
      refresh_ok hash hh d (hds d (by simp)) g hg
    obtain ⟨gN, hN, hwfN, hsecN⟩ :=
      refreshN_ok hash hh ds (fun x hx => hds x (by simp [hx])) g2 hwf2
    refine ⟨gN, ?_, hwfN, ?_⟩
    · unfold NonContiguousMemory.refreshN
      rw [hre]
      exact hN
    · rw [hsecN, hsec]

/-- C3: for every 32-byte payload, every configuration in
{FullRam, RamAndFile}, every hash, and every choice of random bytes drawn at
allocation and at the rotation forced inside the read, reconstructing
(`unlock`) a guard built by `alloc` succeeds and returns exactly the
payload. -/
theorem C3_round_trip (hash : Bytes → Bytes) (hh : HashLen hash)
    (random delta payload : Bytes) (hr : random.length = NC_DATA_SIZE)
    (hdel : delta.length = NC_DATA_SIZE) (hp : payload.length = NC_DATA_SIZE)
    (cfg : NCConfig) (hcfg : cfg = NCConfig.FullRam ∨ cfg = NCConfig.RamAndFile) :
    ∃ g : NonContiguousMemory,
      NonContiguousMemory.alloc hash random payload NC_DATA_SIZE cfg = Except.ok g ∧
      g.unlock hash delta = some (Except.ok (payload, g)) := by
  obtain ⟨g, hal, hwf, _, _, _, _, hsec⟩ := alloc_ok hash hh random payload hr hp cfg hcfg
  exact ⟨g, hal, by rw [unlock_ok hash hh delta hdel g hwf, hsec]⟩

/-- Witness for C3: identity hash, zero allocation randomness, all-ones
rotation delta, payload of 7-bytes, `FullRam` configuration. -/
theorem C3_witness :
    HashLen hash0 ∧ r0.length = NC_DATA_SIZE ∧ d1.length = NC_DATA_SIZE ∧
    p0.length = NC_DATA_SIZE ∧
    (∃ g, NonContiguousMemory.alloc hash0 r0 p0 NC_DATA_SIZE NCConfig.FullRam = Except.ok g ∧
      g.unlock hash0 d1 = some (Except.ok (p0, g))) :=
  ⟨fun _ hb => hb, by decide, by decide, by decide,
   C3_round_trip hash0 (fun _ hb => hb) r0 d1 p0 (by decide) (by decide) (by decide)
     NCConfig.FullRam (Or.inl rfl)⟩

/-- C4: a rotation maps `(R, masked)` to `(R XOR delta, masked XOR Hash256(R)
XOR Hash256(R XOR delta))` and preserves `Hash256(shard1) XOR shard2`; hence
any number N ≥ 1 of rotations followed by reconstruction yields the
originally allocated payload. -/
theorem C4_rotation_preserves_secret (hash : Bytes → Bytes) (hh : HashLen hash) :
    (∀ g : NonContiguousMemory, g.wf = true → ∀ d : Bytes, d.length = NC_DATA_SIZE →
      ∃ g2 : NonContiguousMemory,
        g.refresh hash d = some (Except.ok g2) ∧
        g2.shard1.bytes = xor g.shard1.bytes d NC_DATA_SIZE ∧
        g2.shard2.bytes = xor (xor g.shard2.bytes (hash g.shard1.bytes) NC_DATA_SIZE)
          (hash (xor g.shard1.bytes d NC_DATA_SIZE)) NC_DATA_SIZE ∧
        xor (hash g2.shard1.bytes) g2.shard2.bytes NC_DATA_SIZE =
          xor (hash g.shard1.bytes) g.shard2.bytes NC_DATA_SIZE) ∧
    (∀ random payload : Bytes, random.length = NC_DATA_SIZE →
      payload.length = NC_DATA_SIZE →
      ∀ cfg : NCConfig, cfg = NCConfig.FullRam ∨ cfg = NCConfig.RamAndFile →
      ∀ deltas : List Bytes, deltas ≠ [] → (∀ d ∈ deltas, d.length = NC_DATA_SIZE) →
      ∀ dlast : Bytes, dlast.length = NC_DATA_SIZE →
      ∀ g : NonContiguousMemory,
        NonContiguousMemory.alloc hash random payload NC_DATA_SIZE cfg = Except.ok g →
        ∃ gN, NonContiguousMemory.refreshN hash deltas g = some (Except.ok gN) ∧
          gN.unlock hash dlast = some (Except.ok (payload, gN))) := by
  constructor
  · intro g hg d hd
    obtain ⟨g2, hre, _, _, _, hb1, hb2, hsec⟩ := refresh_ok hash hh d hd g hg
    exact ⟨g2, hre, hb1, hb2, hsec⟩
  · intro random payload hr hp cfg hcfg deltas _ hds dlast hdl g hal
    obtain ⟨g', hal', hwf, _, _, _, _, hsec⟩ := alloc_ok hash hh random payload hr hp cfg hcfg
    rw [hal'] at hal
    obtain rfl := Except.ok.inj hal
    obtain ⟨gN, hN, hwfN, hsecN⟩ := refreshN_ok hash hh deltas hds _ hwf
    refine ⟨gN, hN, ?_⟩
    rw [unlock_ok hash hh dlast hdl gN hwfN, hsecN, hsec]

/-- Witness for C4: one rotation with the all-ones delta on the sample guard,
then reconstruction with another draw. -/
theorem C4_witness :
    HashLen hash0 ∧ sampleGuard.wf = true ∧ d1.length = NC_DATA_SIZE ∧
    (∃ g2 : NonContiguousMemory,
      sampleGuard.refresh hash0 d1 = some (Except.ok g2) ∧
      g2.shard1.bytes = xor sampleGuard.shard1.bytes d1 NC_DATA_SIZE ∧
      g2.shard2.bytes = xor (xor sampleGuard.shard2.bytes (hash0 sampleGuard.shard1.bytes)
        NC_DATA_SIZE) (hash0 (xor sampleGuard.shard1.bytes d1 NC_DATA_SIZE)) NC_DATA_SIZE ∧
      xor (hash0 g2.shard1.bytes) g2.shard2.bytes NC_DATA_SIZE =
        xor (hash0 sampleGuard.shard1.bytes) sampleGuard.shard2.bytes NC_DATA_SIZE) ∧
    (∃ gN, NonContiguousMemory.refreshN hash0 [d1] sampleGuard = some (Except.ok gN) ∧
      gN.unlock hash0 r0 = some (Except.ok (p0, gN))) :=
  ⟨fun _ hb => hb, by decide, by decide,
   (C4_rotation_preserves_secret hash0 (fun _ hb => hb)).1 sampleGuard (by decide) d1 (by decide),
   (C4_rotation_preserves_secret hash0 (fun _ hb => hb)).2 r0 p0 (by decide) (by decide)
     NCConfig.FullRam (Or.inl rfl) [d1] (by decide) (by decide) r0 (by decide)
     sampleGuard (by rfl)⟩

/-- C5 is a code bug: the source comment says "refresh shard before unlock"
and the spec says every read re-randomizes the guard, but `unlock` calls
`self.refresh()?` through `&self` and drops the returned rotated guard, so
after a successful reconstruction the guard still holds its pre-call shard
contents, even though the rotation it computed (and discarded) has different
contents in both shards. -/
theorem C5_unlock_discards_rotation :
    sampleGuard.unlock hash0 d1 = some (Except.ok (p0, sampleGuard)) ∧
    (∃ g2 : NonContiguousMemory,
      sampleGuard.refresh hash0 d1 = some (Except.ok g2) ∧
      g2.shard1.bytes ≠ sampleGuard.shard1.bytes ∧
      g2.shard2.bytes ≠ sampleGuard.shard2.bytes) := by
  constructor
  · rfl
  · refine ⟨_, rfl, ?_, ?_⟩ <;> decide

/-- C7: zeroizing a guard wipes both shard buffers (they are overwritten with
zeros), makes every subsequent unlock of either shard fail with
`ShardUnavailable`, and resets the config field to the `FullRam` sentinel no
matter which configuration the guard was allocated with; dropping a guard
performs exactly this zeroization. -/
theorem C7_zeroize_invalidates (g : NonContiguousMemory) :
    (g.zeroize).shard1.unlockShard = Except.error MemoryError.ShardUnavailable ∧
    (g.zeroize).shard2.unlockShard = Except.error MemoryError.ShardUnavailable ∧
    (g.zeroize).shard1.bytes = List.replicate g.shard1.bytes.length 0 ∧
    (g.zeroize).shard2.bytes = List.replicate g.shard2.bytes.length 0 ∧
    (g.zeroize).config = NCConfig.FullRam ∧
    g.drop = g.zeroize := by
  obtain ⟨s1, s2, c⟩ := g
  cases s1 <;> cases s2 <;>
    simp [NonContiguousMemory.zeroize, NonContiguousMemory.drop, MemoryShard.zeroize,
      MemoryShard.unlockShard, RamMemory.zeroize, FileMemory.zeroize, RamMemory.unlock,
      FileMemory.unlock, MemoryShard.bytes]

/-- C8 counterexample: at the concrete zeroized sample guard, serialization
panics (the `expect` fires, modelled as `none`) rather than reporting an
error value, and deserializing a 31-byte sequence panics as well. -/
theorem C8_counterexample :
    NonContiguousMemory.serialize hash0 d1 (sampleGuard.zeroize) = none ∧
    NonContiguousMemoryVisitor.visit_seq hash0 d1 (List.replicate 31 0) = none :=
  ⟨rfl, rfl⟩

/-- C8 amended: the two named failure paths panic instead of propagating an
error value: serializing a guard whose shards have been zeroized panics on
the `expect` around `unlock` (in fact the shard-1 `expect` inside
`get_buffer_from_shard1` fires first), and deserializing a byte sequence
whose length is not 32 panics on the `expect` around `alloc`. -/
theorem C8_amended_panics (hash : Bytes → Bytes) (random : Bytes)
    (g : NonContiguousMemory) (seq : Bytes) (hlen : seq.length ≠ NC_DATA_SIZE) :
    NonContiguousMemory.serialize hash random (g.zeroize) = none ∧
    NonContiguousMemoryVisitor.visit_seq hash random seq = none := by
  constructor
  · have hgb : (g.zeroize).get_buffer_from_shard1 = none := by
      unfold NonContiguousMemory.get_buffer_from_shard1
      obtain ⟨s1, s2, c⟩ := g
      cases s1 <;>
        simp [NonContiguousMemory.zeroize, MemoryShard.zeroize, RamMemory.zeroize,
          RamMemory.unlock, FileMemory.zeroize]
    have hre : (g.zeroize).refresh hash random = none := by
      unfold NonContiguousMemory.refresh
      rw [hgb]
    unfold NonContiguousMemory.serialize NonContiguousMemory.unlock
    rw [hre]
  · unfold NonContiguousMemoryVisitor.visit_seq NonContiguousMemory.alloc
    simp [hlen]

/-- Witness for the amended C8 at the sample guard and a 31-byte sequence. -/
theorem C8_amended_witness :
    (List.replicate 31 0 : Bytes).length ≠ NC_DATA_SIZE ∧
    (NonContiguousMemory.serialize hash0 d1 (sampleGuard.zeroize) = none ∧
     NonContiguousMemoryVisitor.visit_seq hash0 d1 (List.replicate 31 0) = none) :=
  ⟨by decide, C8_amended_panics hash0 d1 sampleGuard (List.replicate 31 0) (by decide)⟩

/-- C9: deserializing any 32-byte sequence yields a guard configured
`FullRam` regardless of the original configuration, and the
serialize-then-deserialize round trip preserves the logical 32-byte secret:
reconstructing the deserialized guard returns the originally allocated
payload. -/
theorem C9_serde_round_trip (hash : Bytes → Bytes) (hh : HashLen hash) :
    (∀ seq r2 : Bytes, seq.length = NC_DATA_SIZE →
      ∃ g2, NonContiguousMemoryVisitor.visit_seq hash r2 seq = some g2 ∧
        g2.config = NCConfig.FullRam) ∧
    (∀ random delta random2 delta2 payload : Bytes,
      random.length = NC_DATA_SIZE → delta.length = NC_DATA_SIZE →
      random2.length = NC_DATA_SIZE → delta2.length = NC_DATA_SIZE →
      payload.length = NC_DATA_SIZE →
      ∀ cfg : NCConfig, cfg = NCConfig.FullRam ∨ cfg = NCConfig.RamAndFile →
      ∀ g, NonContiguousMemory.alloc hash random payload NC_DATA_SIZE cfg = Except.ok g →
      ∃ g2, NonContiguousMemory.serialize hash delta g = some payload ∧
        NonContiguousMemory.deserialize hash random2 payload = some g2 ∧
        g2.config = NCConfig.FullRam ∧
        g2.unlock hash delta2 = some (Except.ok (payload, g2))) := by
  constructor
  · intro seq r2 hseq
    unfold NonContiguousMemoryVisitor.visit_seq NonContiguousMemory.alloc
    rw [hseq]
    simp [RamMemory.alloc]
  · intro random delta random2 delta2 payload hr hdel hr2 hdel2 hp cfg hcfg g hal
    obtain ⟨g', hal', hwf, _, _, _, _, hsec⟩ := alloc_ok hash hh random payload hr hp cfg hcfg
    rw [hal'] at hal
    obtain rfl := Except.ok.inj hal
    have hser : NonContiguousMemory.serialize hash delta g' = some payload := by
      unfold NonContiguousMemory.serialize
      rw [unlock_ok hash hh delta hdel g' hwf, hsec]
    obtain ⟨g2, hal2, hwf2, hcfg2, _, _, _, hsec2⟩ :=
      alloc_ok hash hh random2 payload hr2 hp NCConfig.FullRam (Or.inl rfl)
    have hdes : NonContiguousMemory.deserialize hash random2 payload = some g2 := by
      unfold NonContiguousMemory.deserialize NonContiguousMemoryVisitor.visit_seq
      rw [hp, hal2]
    refine ⟨g2, hser, hdes, hcfg2, ?_⟩
    rw [unlock_ok hash hh delta2 hdel2 g2 hwf2, hsec2]

/-- Witness for C9: a guard allocated `RamAndFile` serializes to its payload
and deserializes back to a `FullRam` guard holding the same secret. -/
theorem C9_witness :
    HashLen hash0 ∧ p0.length = NC_DATA_SIZE ∧ r0.length = NC_DATA_SIZE ∧
    d1.length = NC_DATA_SIZE ∧
    NonContiguousMemory.alloc hash0 r0 p0 NC_DATA_SIZE NCConfig.RamAndFile =
      Except.ok sampleGuardRF ∧
    (∃ g2, NonContiguousMemoryVisitor.visit_seq hash0 r0 p0 = some g2 ∧
      g2.config = NCConfig.FullRam) ∧
    (∃ g2, NonContiguousMemory.serialize hash0 d1 sampleGuardRF = some p0 ∧
      NonContiguousMemory.deserialize hash0 r0 p0 = some g2 ∧
      g2.config = NCConfig.FullRam ∧
      g2.unlock hash0 d1 = some (Except.ok (p0, g2))) :=
  ⟨fun _ hb => hb, by decide, by decide, by decide, by rfl,
   (C9_serde_round_trip hash0 (fun _ hb => hb)).1 p0 r0 (by decide),
   (C9_serde_round_trip hash0 (fun _ hb => hb)).2 r0 d1 r0 d1 p0 (by decide) (by decide)
     (by decide) (by decide) (by decide) NCConfig.RamAndFile (Or.inr rfl)
     sampleGuardRF (by rfl)⟩

theorem alloc_shard1_ram (hash : Bytes → Bytes) (random payload : Bytes)
    (size : Nat) (cfg : NCConfig) (g : NonContiguousMemory)
    (hg : NonContiguousMemory.alloc hash random payload size cfg = Except.ok g) :
    g.shard1.isRam = true ∧
    (g.config = NCConfig.FullRam ∨ g.config = NCConfig.RamAndFile) := by
  unfold NonContiguousMemory.alloc at hg
  split at hg
  · exact absurd hg (by simp)
  · cases cfg with
    | FullFile => simp [RamMemory.alloc] at hg
    | FullRam =>
      simp only [RamMemory.alloc] at hg
      obtain rfl := Except.ok.inj hg
      exact ⟨rfl, Or.inl rfl⟩
    | RamAndFile =>
      simp only [RamMemory.alloc, FileMemory.alloc] at hg
      obtain rfl := Except.ok.inj hg
      exact ⟨rfl, Or.inr rfl⟩

theorem refresh_shard1_ram (hash : Bytes → Bytes) (d : Bytes)
    (g g2 : NonContiguousMemory) (hg : g.refresh hash d = some (Except.ok g2)) :
    g2.shard1.isRam = true := by
  unfold NonContiguousMemory.refresh at hg
  split at hg
  · exact absurd hg (by simp)
  · simp only [RamMemory.alloc] at hg
    split at hg
    · split at hg
      · exact absurd hg (by simp)
      · obtain rfl := Except.ok.inj (Option.some.inj hg)
        rfl
    · split at hg
      · exact absurd hg (by simp)
      · simp only [FileMemory.alloc] at hg
        obtain rfl := Except.ok.inj (Option.some.inj hg)
        rfl

/-- C10: every guard produced by `alloc` — and hence by `update`, which calls
`alloc`, while `refresh` rebuilds shard1 the same way — has a RAM-backed
first shard and a config in `{FullRam, RamAndFile}`, so the internal
"this case should not happen" arm of `get_buffer_from_shard1` for a non-RAM
first shard is never taken for any such guard. -/
theorem C10_alloc_guards_ram_shard1 (hash : Bytes → Bytes) (random payload : Bytes)
    (size : Nat) (cfg : NCConfig) :
    (∀ g, NonContiguousMemory.alloc hash random payload size cfg = Except.ok g →
      g.shard1.isRam = true ∧
      (g.config = NCConfig.FullRam ∨ g.config = NCConfig.RamAndFile)) ∧
    (∀ self g, NonContiguousMemory.update hash random self payload size = Except.ok g →
      g.shard1.isRam = true ∧
      (g.config = NCConfig.FullRam ∨ g.config = NCConfig.RamAndFile)) ∧
    (∀ g d g2, NonContiguousMemory.refresh hash d g = some (Except.ok g2) →
      g2.shard1.isRam = true) :=
  ⟨fun g hg => alloc_shard1_ram hash random payload size cfg g hg,
   fun self g hg => alloc_shard1_ram hash random payload size self.config g hg,
   fun g d g2 hg => refresh_shard1_ram hash d g g2 hg⟩

/-- Witness for C10 at the sample allocation. -/
theorem C10_witness :
    NonContiguousMemory.alloc hash0 r0 p0 NC_DATA_SIZE NCConfig.FullRam =
      Except.ok sampleGuard ∧
    (sampleGuard.shard1.isRam = true ∧
     (sampleGuard.config = NCConfig.FullRam ∨ sampleGuard.config = NCConfig.RamAndFile)) :=
  ⟨by rfl,
   (C10_alloc_guards_ram_shard1 hash0 r0 p0 NC_DATA_SIZE NCConfig.FullRam).1
     sampleGuard (by rfl)⟩

end Stronghold
